import Mathlib

/-!
Verification of the kz80_action compiler (an Action!-language cross-compiler
targeting the Z80).  The Rust sources are embedded shallowly: pure functions
become Lean functions, the `&mut self` methods of the code generator become
explicit state passing over a `CodeGenerator` structure, `u8`/`u16` values are
`Nat` with `% 256` / `% 65536` at the points where the source converts or
wraps, and fallible code returns `Except CompileError`.
-/

namespace Action

/-- Uppercasing used by the lexer and the runtime symbol table.  The Rust
source calls `str::to_uppercase`, which agrees with per-character ASCII
uppercasing on the ASCII strings that identifiers are made of. -/
def upperStr (s : String) : String := String.mk (s.data.map Char.toUpper)

/-! ## token.rs -/

/-- `Token` from src/token.rs.  The literal constructors carry the same
payloads as the Rust enum (`Number(i32)` is modelled as `Int`). -/
inductive Token where
  | Number (n : Int)
  | StringLit (s : String)
  | CharLit (c : Char)
  | Identifier (s : String)
  | Byte | Card | Int | Char_ | Array
  | If | Then | Else | ElseIf | Fi
  | While | Do | Od | For | To | Step | Until | Exit | Return
  | Proc | Func | Module
  | Plus | Minus | Star | Slash | Mod | Lsh | Rsh
  | Equal | NotEqual | Less | LessEqual | Greater | GreaterEqual
  | And | Or | Xor | Not
  | BitAnd | BitOr | BitXor
  | Assign
  | LeftParen | RightParen | LeftBracket | RightBracket
  | Comma | Semicolon | Colon | At | Caret
  | Eof | Newline
  deriving Repr

/-- The constructor tag of a token (declaration order). -/
def Token.tag : Token → Nat
  | .Number _ => 0
  | .StringLit _ => 1
  | .CharLit _ => 2
  | .Identifier _ => 3
  | .Byte => 4
  | .Card => 5
  | .Int => 6
  | .Char_ => 7
  | .Array => 8
  | .If => 9
  | .Then => 10
  | .Else => 11
  | .ElseIf => 12
  | .Fi => 13
  | .While => 14
  | .Do => 15
  | .Od => 16
  | .For => 17
  | .To => 18
  | .Step => 19
  | .Until => 20
  | .Exit => 21
  | .Return => 22
  | .Proc => 23
  | .Func => 24
  | .Module => 25
  | .Plus => 26
  | .Minus => 27
  | .Star => 28
  | .Slash => 29
  | .Mod => 30
  | .Lsh => 31
  | .Rsh => 32
  | .Equal => 33
  | .NotEqual => 34
  | .Less => 35
  | .LessEqual => 36
  | .Greater => 37
  | .GreaterEqual => 38
  | .And => 39
  | .Or => 40
  | .Xor => 41
  | .Not => 42
  | .BitAnd => 43
  | .BitOr => 44
  | .BitXor => 45
  | .Assign => 46
  | .LeftParen => 47
  | .RightParen => 48
  | .LeftBracket => 49
  | .RightBracket => 50
  | .Comma => 51
  | .Semicolon => 52
  | .Colon => 53
  | .At => 54
  | .Caret => 55
  | .Eof => 56
  | .Newline => 57

/-- The integer payload of a token (`Number`); `ℤ` is the integers (a bare
`Int` here would denote the `Token.Int` keyword constructor). -/
def Token.numVal : Token → Option ℤ
  | .Number n => some n
  | _ => none

/-- The string payload of a token (`StringLit`/`Identifier`). -/
def Token.strVal : Token → Option String
  | .StringLit s => some s
  | .Identifier s => some s
  | _ => none

/-- The char payload of a token (`CharLit`). -/
def Token.charVal : Token → Option Char
  | .CharLit c => some c
  | _ => none

/-- Structural equality of tokens (the Rust enum derives `PartialEq`):
tokens are equal exactly when their constructor tags and payloads agree —
stated via the tag/payload projections, whose reductions stay small where a
derived 58×58 decision procedure would not. -/
def Token.beq (a b : Token) : Bool :=
  Token.tag a == Token.tag b && Token.numVal a == Token.numVal b &&
  Token.strVal a == Token.strVal b && Token.charVal a == Token.charVal b

instance : BEq Token := ⟨Token.beq⟩

/-! ## ast.rs -/

/-- `DataType` from src/ast.rs. -/
inductive DataType where
  | Byte
  | Card
  | Int
  | Char
  | ByteArray (n : Nat)
  | CardArray (n : Nat)
  | IntArray (n : Nat)
  | Pointer (t : DataType)
  deriving Repr, DecidableEq

/-- `DataType::size` from src/ast.rs. -/
def DataType.size : DataType → Nat
  | .Byte | .Char => 1
  | .Card | .Int => 2
  | .ByteArray n => n
  | .CardArray n => n * 2
  | .IntArray n => n * 2
  | .Pointer _ => 2

/-- `DataType::is_word` from src/ast.rs. -/
def DataType.is_word : DataType → Bool
  | .Card | .Int | .Pointer _ => true
  | _ => false

/-- `Expression` from src/ast.rs. -/
inductive Expression where
  | Number (n : Int)
  | StringLit (s : String)
  | CharLit (c : Char)
  | Variable (name : String)
  | ArrayAccess (array : String) (index : Expression)
  | Negate (e : Expression)
  | Not (e : Expression)
  | AddressOf (name : String)
  | Dereference (e : Expression)
  | Add (l r : Expression)
  | Subtract (l r : Expression)
  | Multiply (l r : Expression)
  | Divide (l r : Expression)
  | Modulo (l r : Expression)
  | LeftShift (l r : Expression)
  | RightShift (l r : Expression)
  | Equal (l r : Expression)
  | NotEqual (l r : Expression)
  | Less (l r : Expression)
  | LessEqual (l r : Expression)
  | Greater (l r : Expression)
  | GreaterEqual (l r : Expression)
  | And (l r : Expression)
  | Or (l r : Expression)
  | Xor (l r : Expression)
  | BitAnd (l r : Expression)
  | BitOr (l r : Expression)
  | BitXor (l r : Expression)
  | FunctionCall (name : String) (args : List Expression)
  deriving Repr

/-- `Variable` from src/ast.rs. -/
structure Variable where
  name : String
  data_type : DataType
  initial_value : Option Expression
  deriving Repr

/-- `Parameter` from src/ast.rs. -/
structure Parameter where
  name : String
  data_type : DataType
  deriving Repr

/-- `Statement` from src/ast.rs. -/
inductive Statement where
  | VarDecl (var : Variable)
  | Assignment (target : String) (value : Expression)
  | ArrayAssignment (array : String) (index : Expression) (value : Expression)
  | PointerAssignment (pointer : Expression) (value : Expression)
  | If (condition : Expression) (then_block : List Statement)
      (else_block : Option (List Statement))
  | While (condition : Expression) (body : List Statement)
  | For (var : String) (start : Expression) (stop : Expression)
      (step : Option Expression) (body : List Statement)
  | Until (condition : Expression) (body : List Statement)
  | Exit
  | Return (value : Option Expression)
  | ProcCall (name : String) (args : List Expression)
  | Block (statements : List Statement)
  deriving Repr

/-- `Procedure` from src/ast.rs. -/
structure Procedure where
  name : String
  params : List Parameter
  return_type : Option DataType
  locals : List Variable
  body : List Statement
  deriving Repr

/-- `Program` from src/ast.rs. -/
structure Program where
  globals : List Variable
  procedures : List Procedure
  deriving Repr

/-! ## error.rs -/

/-- `CompileError` from src/error.rs. -/
inductive CompileError where
  | LexerError (line column : Nat) (message : String)
  | ParserError (line : Nat) (message : String)
  | UnexpectedToken (expected found : String)
  | UndefinedVariable (name : String)
  | UndefinedProcedure (name : String)
  | TypeMismatch (expected found : String)
  | CodeGenError (message : String)
  | InternalError (message : String)
  deriving Repr, DecidableEq

/-! ## runtime.rs -/

/-- `RuntimeSymbols` from src/runtime.rs (all fields are `u16` addresses). -/
structure RuntimeSymbols where
  print_b : Nat
  print_c : Nat
  print_e : Nat
  print : Nat
  get_d : Nat
  put_d : Nat
  multiply : Nat
  div8 : Nat
  end_address : Nat
  deriving Repr, DecidableEq

/-- `RuntimeSymbols::get_function` from src/runtime.rs. -/
def RuntimeSymbols.get_function (s : RuntimeSymbols) (name : String) : Option Nat :=
  match upperStr name with
  | "PRINTB" => some s.print_b
  | "PRINTC" => some s.print_c
  | "PRINTE" => some s.print_e
  | "PRINT" => some s.print
  | "GETD" => some s.get_d
  | "PUTD" => some s.put_d
  | _ => none

/-- `i8 as u8` two's-complement byte of an integer (used for the relative
branch offsets computed in runtime.rs). -/
def i8_as_u8 (x : Int) : Nat := (x % 256).toNat

/-- `generate_runtime` from src/runtime.rs.  Each `code.push(..)` becomes an
append, each `addr += k` is mirrored literally (the source uses `u16`
arithmetic; the claims about this function carry explicit bounds keeping the
addresses inside the 16-bit space, under which plain `Nat` addition agrees).
The intra-blob forward references to `div8` are recorded and back-patched
exactly as in the source (`& 0xFF` is `% 256`, `>> 8` is `/ 256`). -/
def generate_runtime (base_address : Nat) : List Nat × RuntimeSymbols :=
  let code : List Nat := []
  let addr := base_address
  -- CONSOLE_DATA = 0x00, CONSOLE_STATUS = 0x01
  -- PrintB ------------------------------------------------------------
  let print_b := addr
  let code := code ++ [0xF5]                       -- PUSH AF
  let addr := addr + 1
  let code := code ++ [0x06, 100]                  -- LD B, 100
  let addr := addr + 2
  let code := code ++ [0xCD]                       -- CALL div8
  let div8_call1 := code.length
  let code := code ++ [0x00, 0x00]                 -- placeholder
  let addr := addr + 3
  let code := code ++ [0xB7]                       -- OR A
  let addr := addr + 1
  let code := code ++ [0x28, 0x06]                 -- JR Z, skip_hundreds
  let addr := addr + 2
  let code := code ++ [0xC6, 0x30]                 -- ADD A, '0'
  let addr := addr + 2
  let code := code ++ [0xD3, 0x00]                 -- OUT (CONSOLE_DATA), A
  let addr := addr + 2
  let code := code ++ [0x3E, 0x01]                 -- LD A, 1
  let addr := addr + 2
  let code := code ++ [0x79]                       -- LD A, C
  let addr := addr + 1
  let code := code ++ [0x06, 10]                   -- LD B, 10
  let addr := addr + 2
  let code := code ++ [0xCD]                       -- CALL div8
  let div8_call2 := code.length
  let code := code ++ [0x00, 0x00]                 -- placeholder
  let addr := addr + 3
  let code := code ++ [0xC6, 0x30]                 -- ADD A, '0'
  let addr := addr + 2
  let code := code ++ [0xD3, 0x00]                 -- OUT (CONSOLE_DATA), A
  let addr := addr + 2
  let code := code ++ [0x79]                       -- LD A, C
  let addr := addr + 1
  let code := code ++ [0xC6, 0x30]                 -- ADD A, '0'
  let addr := addr + 2
  let code := code ++ [0xD3, 0x00]                 -- OUT (CONSOLE_DATA), A
  let addr := addr + 2
  let code := code ++ [0xF1]                       -- POP AF
  let addr := addr + 1
  let code := code ++ [0xC9]                       -- RET
  let addr := addr + 1
  -- PrintC ------------------------------------------------------------
  let print_c := addr
  let code := code ++ [0xE5]                       -- PUSH HL
  let addr := addr + 1
  let code := code ++ [0xD5]                       -- PUSH DE
  let addr := addr + 1
  let code := code ++ [0xC5]                       -- PUSH BC
  let addr := addr + 1
  let code := code ++ [0x7D]                       -- LD A, L
  let addr := addr + 1
  let code := code ++ [0xCD, print_b % 256, print_b / 256 % 256]  -- CALL PrintB
  let addr := addr + 3
  let code := code ++ [0xC1]                       -- POP BC
  let addr := addr + 1
  let code := code ++ [0xD1]                       -- POP DE
  let addr := addr + 1
  let code := code ++ [0xE1]                       -- POP HL
  let addr := addr + 1
  let code := code ++ [0xC9]                       -- RET
  let addr := addr + 1
  -- PrintE ------------------------------------------------------------
  let print_e := addr
  let code := code ++ [0x3E, 0x0D]                 -- LD A, 13 (CR)
  let addr := addr + 2
  let code := code ++ [0xD3, 0x00]                 -- OUT (CONSOLE_DATA), A
  let addr := addr + 2
  let code := code ++ [0x3E, 0x0A]                 -- LD A, 10 (LF)
  let addr := addr + 2
  let code := code ++ [0xD3, 0x00]                 -- OUT (CONSOLE_DATA), A
  let addr := addr + 2
  let code := code ++ [0xC9]                       -- RET
  let addr := addr + 1
  -- Print -------------------------------------------------------------
  let print := addr
  let code := code ++ [0x7E]                       -- LD A, (HL)
  let addr := addr + 1
  let code := code ++ [0xB7]                       -- OR A
  let addr := addr + 1
  let code := code ++ [0xC8]                       -- RET Z
  let addr := addr + 1
  let code := code ++ [0xD3, 0x00]                 -- OUT (CONSOLE_DATA), A
  let addr := addr + 2
  let code := code ++ [0x23]                       -- INC HL
  let addr := addr + 1
  let code := code ++ [0x18, 0xF7]                 -- JR print_loop
  let addr := addr + 2
  -- GetD --------------------------------------------------------------
  let get_d := addr
  let code := code ++ [0xDB, 0x01]                 -- IN A, (CONSOLE_STATUS)
  let addr := addr + 2
  let code := code ++ [0xE6, 0x01]                 -- AND 1
  let addr := addr + 2
  let code := code ++ [0x28, 0xFA]                 -- JR Z, GetD
  let addr := addr + 2
  let code := code ++ [0xDB, 0x00]                 -- IN A, (CONSOLE_DATA)
  let addr := addr + 2
  let code := code ++ [0xC9]                       -- RET
  let addr := addr + 1
  -- PutD --------------------------------------------------------------
  let put_d := addr
  let code := code ++ [0xD3, 0x00]                 -- OUT (CONSOLE_DATA), A
  let addr := addr + 2
  let code := code ++ [0xC9]                       -- RET
  let addr := addr + 1
  -- Multiply ----------------------------------------------------------
  let multiply := addr
  let code := code ++ [0xC5]                       -- PUSH BC
  let addr := addr + 1
  let code := code ++ [0x44]                       -- LD B, H
  let addr := addr + 1
  let code := code ++ [0x4D]                       -- LD C, L
  let addr := addr + 1
  let code := code ++ [0x21, 0x00, 0x00]           -- LD HL, 0
  let addr := addr + 3
  let code := code ++ [0x06, 16]                   -- LD B, 16
  let addr := addr + 2
  let mult_loop := addr
  let code := code ++ [0x29]                       -- ADD HL, HL
  let addr := addr + 1
  let code := code ++ [0xCB, 0x23]                 -- SLA E
  let addr := addr + 2
  let code := code ++ [0xCB, 0x12]                 -- RL D
  let addr := addr + 2
  let code := code ++ [0x30, 0x01]                 -- JR NC, skip_add
  let addr := addr + 2
  let code := code ++ [0x09]                       -- ADD HL, BC
  let addr := addr + 1
  let code := code ++ [0x10, i8_as_u8 ((mult_loop : Int) - (addr : Int) - 1)]  -- DJNZ mult_loop
  let addr := addr + 2
  let code := code ++ [0xC1]                       -- POP BC
  let addr := addr + 1
  let code := code ++ [0xC9]                       -- RET
  let addr := addr + 1
  -- div8 --------------------------------------------------------------
  let div8 := addr
  -- patch the two earlier CALL placeholders
  let code := (code.set div8_call1 (div8 % 256)).set (div8_call1 + 1) (div8 / 256 % 256)
  let code := (code.set div8_call2 (div8 % 256)).set (div8_call2 + 1) (div8 / 256 % 256)
  let code := code ++ [0x4F]                       -- LD C, A
  let addr := addr + 1
  let code := code ++ [0x16, 0x00]                 -- LD D, 0
  let addr := addr + 2
  let div8_loop := addr
  let code := code ++ [0x79]                       -- LD A, C
  let addr := addr + 1
  let code := code ++ [0xB8]                       -- CP B
  let addr := addr + 1
  let code := code ++ [0x38, 0x05]                 -- JR C, div8_done
  let addr := addr + 2
  let code := code ++ [0x90]                       -- SUB B
  let addr := addr + 1
  let code := code ++ [0x4F]                       -- LD C, A
  let addr := addr + 1
  let code := code ++ [0x14]                       -- INC D
  let addr := addr + 1
  let code := code ++ [0x18, i8_as_u8 ((div8_loop : Int) - (addr : Int) - 1)]  -- JR div8_loop
  let addr := addr + 2
  let code := code ++ [0x7A]                       -- LD A, D
  let addr := addr + 1
  let code := code ++ [0xC9]                       -- RET
  let addr := addr + 1
  let end_address := addr
  (code, ⟨print_b, print_c, print_e, print, get_d, put_d, multiply, div8, end_address⟩)

/-! ## codegen.rs

The Rust `CodeGenerator` holds its mutable state in `self`; we model every
`&mut self` method as a function taking and returning a `CodeGenerator`
record.  `HashMap` fields become association lists where insertion conses at
the head (so lookup sees the most recent binding, matching `HashMap`
overwrite semantics); `Vec` push/pop/last on `loop_stack` become cons, tail
and head of a list whose head is the most recently pushed frame.  The unused
`listing`/`data_section` fields (never written by the source) are omitted.
`u16` arithmetic wraps (`% 65536`), matching release-mode Rust; the claims
that depend on addresses carry bounds under which no wrap occurs. -/

/-- `SymbolInfo` from src/codegen.rs. -/
structure SymbolInfo where
  address : Nat
  data_type : DataType
  is_param : Bool
  stack_offset : Option Int
  deriving Repr

/-- The state of `CodeGenerator` from src/codegen.rs. -/
structure CodeGenerator where
  origin : Nat
  code : List Nat
  pc : Nat
  globals : List (String × SymbolInfo)
  locals : List (String × SymbolInfo)
  procedures : List (String × Nat)
  label_counter : Nat
  loop_stack : List (Nat × Nat)
  data_offset : Nat
  runtime : Option RuntimeSymbols
  deriving Repr

/-- `CodeGenerator::new`. -/
def CodeGenerator.new (origin : Nat) : CodeGenerator :=
  { origin := origin, code := [], pc := origin, globals := [], locals := [],
    procedures := [], label_counter := 0, loop_stack := [], data_offset := 0,
    runtime := none }

/-- `CodeGenerator::set_runtime_symbols`. -/
def CodeGenerator.set_runtime_symbols (cg : CodeGenerator) (s : RuntimeSymbols) :
    CodeGenerator :=
  { cg with runtime := some s }

/-- `CodeGenerator::emit`: push one byte and advance `pc` (a `u16`). -/
def emit (byte : Nat) (cg : CodeGenerator) : CodeGenerator :=
  { cg with code := cg.code ++ [byte], pc := (cg.pc + 1) % 65536 }

/-- `CodeGenerator::emit_bytes`. -/
def emit_bytes (bytes : List Nat) (cg : CodeGenerator) : CodeGenerator :=
  bytes.foldl (fun c b => emit b c) cg

/-- `CodeGenerator::emit_word`: low byte (`& 0xFF`) then high byte (`>> 8`,
truncated to `u8`). -/
def emit_word (word : Nat) (cg : CodeGenerator) : CodeGenerator :=
  cg |> emit (word % 256) |> emit (word / 256 % 256)

/-- `CodeGenerator::current_address`. -/
def current_address (cg : CodeGenerator) : Nat := cg.pc

/-- `CodeGenerator::patch_word`: overwrite the two bytes at
`addr - origin` with the little-endian `value`; `pc` and the code length are
untouched. -/
def patch_word (addr value : Nat) (cg : CodeGenerator) : CodeGenerator :=
  let offset := addr - cg.origin
  { cg with code := (cg.code.set offset (value % 256)).set (offset + 1) (value / 256 % 256) }

/-- `CodeGenerator::emit_load_byte` (`LD A, n`). -/
def emit_load_byte (value : Nat) (cg : CodeGenerator) : CodeGenerator :=
  cg |> emit 0x3E |> emit value

/-- `CodeGenerator::emit_load_word` (`LD HL, nn`). -/
def emit_load_word (value : Nat) (cg : CodeGenerator) : CodeGenerator :=
  cg |> emit 0x21 |> emit_word value

/-- `CodeGenerator::emit_load_var`.  Locals are rejected with a
`CodeGenError` (stack-relative addressing is unimplemented); globals load via
`LD HL,(nn)` (word) or `LD A,(nn)` (byte); anything else is
`UndefinedVariable`. -/
def emit_load_var (name : String) (cg : CodeGenerator) :
    Except CompileError (DataType × CodeGenerator) :=
  match cg.locals.lookup name with
  | some _ => .error (.CodeGenError "Local variables not yet fully implemented")
  | none =>
    match cg.globals.lookup name with
    | some info =>
      if info.data_type.is_word then
        .ok (info.data_type, cg |> emit 0x2A |> emit_word info.address)
      else
        .ok (info.data_type, cg |> emit 0x3A |> emit_word info.address)
    | none => .error (.UndefinedVariable name)

/-- `CodeGenerator::emit_store_var` (globals only, as in the source). -/
def emit_store_var (name : String) (is_word : Bool) (cg : CodeGenerator) :
    Except CompileError CodeGenerator :=
  match cg.globals.lookup name with
  | some info =>
    if is_word || info.data_type.is_word then
      .ok (cg |> emit 0x22 |> emit_word info.address)
    else
      .ok (cg |> emit 0x32 |> emit_word info.address)
  | none => .error (.UndefinedVariable name)

/-- Rust `i32 as u8` (two's-complement truncation). -/
def i32_as_u8 (n : Int) : Nat := (n % 256).toNat

/-- Rust `i32 as u16` (two's-complement truncation). -/
def i32_as_u16 (n : Int) : Nat := (n % 65536).toNat

/-- Rust `char as u8` (low byte of the scalar value). -/
def char_as_u8 (c : Char) : Nat := c.toNat % 256

mutual

/-- `CodeGenerator::gen_expression`: emit code leaving the result in `A`
(returns `false`) or `HL` (returns `true`).  The arms appear in source
order; shapes the source does not support fall to the final `CodeGenError`
arm (whose Rust message interpolates the debug form of the expression). -/
def gen_expression : Expression → CodeGenerator → Except CompileError (Bool × CodeGenerator)
  | .Number n, cg =>
    if 0 ≤ n ∧ n ≤ 255 then
      .ok (false, emit_load_byte (i32_as_u8 n) cg)
    else
      .ok (true, emit_load_word (i32_as_u16 n) cg)
  | .CharLit c, cg => .ok (false, emit_load_byte (char_as_u8 c) cg)
  | .Variable name, cg => do
    let (dt, cg) ← emit_load_var name cg
    .ok (dt.is_word, cg)
  | .Add left right, cg => do
    let (left_word, cg) ← gen_expression left cg
    if left_word then do
      let cg := emit 0xE5 cg                       -- PUSH HL
      let (right_word, cg) ← gen_expression right cg
      let cg := if !right_word then
          cg |> emit 0x6F |> emit 0x26 |> emit 0   -- LD L,A ; LD H,0
        else cg
      .ok (true, cg |> emit 0xD1 |> emit 0x19)     -- POP DE ; ADD HL,DE
    else do
      let cg := emit 0x47 cg                       -- LD B,A
      let (right_word, cg) ← gen_expression right cg
      if right_word then
        .ok (true, cg |> emit 0x4F |> emit 0x78 |> emit 0x6F |> emit 0x26 |> emit 0
                      |> emit 0x16 |> emit 0 |> emit 0x5F |> emit 0x19)
      else
        .ok (false, emit 0x80 cg)                  -- ADD A,B
  | .Subtract left right, cg => do
    let (left_word, cg) ← gen_expression left cg
    if left_word then do
      let cg := emit 0xE5 cg                       -- PUSH HL
      let (_, cg) ← gen_expression right cg
      .ok (true, cg |> emit 0x54 |> emit 0x5D |> emit 0xE1 |> emit 0xA7
                    |> emit 0x7D |> emit 0x93 |> emit 0x6F
                    |> emit 0x7C |> emit 0x9A |> emit 0x67)
    else do
      let cg := emit 0x47 cg                       -- LD B,A
      let (_, cg) ← gen_expression right cg
      .ok (false, cg |> emit 0x4F |> emit 0x78 |> emit 0x91)
  | .Multiply left right, cg => do
    let (_, cg) ← gen_expression left cg
    let cg := emit 0x47 cg                         -- LD B,A
    let (_, cg) ← gen_expression right cg
    let cg := emit 0x4F cg                         -- LD C,A
    .ok (false, cg |> emit 0xCD |> emit_word 0x0000)  -- CALL placeholder
  | .Equal left right, cg => do
    let (_, cg) ← gen_expression left cg
    let cg := emit 0x47 cg
    let (_, cg) ← gen_expression right cg
    .ok (false, cg |> emit 0xB8 |> emit 0x3E |> emit 0 |> emit 0x20 |> emit 1 |> emit 0x3C)
  | .NotEqual left right, cg => do
    let (_, cg) ← gen_expression left cg
    let cg := emit 0x47 cg
    let (_, cg) ← gen_expression right cg
    .ok (false, cg |> emit 0xB8 |> emit 0x3E |> emit 0 |> emit 0x28 |> emit 1 |> emit 0x3C)
  | .Less left right, cg => do
    let (_, cg) ← gen_expression left cg
    let cg := emit 0x47 cg
    let (_, cg) ← gen_expression right cg
    .ok (false, cg |> emit 0x4F |> emit 0x78 |> emit 0xB9
                   |> emit 0x3E |> emit 0 |> emit 0x30 |> emit 1 |> emit 0x3C)
  | .Greater left right, cg => do
    -- a > b is compiled as b < a: right first
    let (_, cg) ← gen_expression right cg
    let cg := emit 0x47 cg
    let (_, cg) ← gen_expression left cg
    .ok (false, cg |> emit 0x4F |> emit 0x78 |> emit 0xB9
                   |> emit 0x3E |> emit 0 |> emit 0x30 |> emit 1 |> emit 0x3C)
  | .LessEqual left right, cg => do
    let (_, cg) ← gen_expression left cg
    let cg := emit 0x47 cg
    let (_, cg) ← gen_expression right cg
    .ok (false, cg |> emit 0x4F |> emit 0x78 |> emit 0xB9
                   |> emit 0x3E |> emit 1 |> emit 0x28 |> emit 3
                   |> emit 0x38 |> emit 1 |> emit 0xAF)
  | .GreaterEqual left right, cg => do
    let (_, cg) ← gen_expression left cg
    let cg := emit 0x47 cg
    let (_, cg) ← gen_expression right cg
    .ok (false, cg |> emit 0x4F |> emit 0x78 |> emit 0xB9
                   |> emit 0x3E |> emit 0 |> emit 0x38 |> emit 1 |> emit 0x3C)
  | .And left right, cg => do
    let (_, cg) ← gen_expression left cg
    let cg := emit 0x47 cg
    let (_, cg) ← gen_expression right cg
    .ok (false, emit 0xA0 cg)                      -- AND B
  | .Or left right, cg => do
    let (_, cg) ← gen_expression left cg
    let cg := emit 0x47 cg
    let (_, cg) ← gen_expression right cg
    .ok (false, cg |> emit 0xB7 |> emit 0xF6 |> emit 0)  -- OR A ; OR 0 (as in source)
  | .BitAnd left right, cg => do
    let (_, cg) ← gen_expression left cg
    let cg := emit 0x47 cg
    let (_, cg) ← gen_expression right cg
    .ok (false, emit 0xA0 cg)                      -- AND B
  | .BitOr left right, cg => do
    let (_, cg) ← gen_expression left cg
    let cg := emit 0x47 cg
    let (_, cg) ← gen_expression right cg
    .ok (false, cg |> emit 0x4F |> emit 0x78 |> emit 0xB1)  -- OR C
  | .BitXor left right, cg => do
    let (_, cg) ← gen_expression left cg
    let cg := emit 0x47 cg
    let (_, cg) ← gen_expression right cg
    .ok (false, cg |> emit 0x4F |> emit 0x78 |> emit 0xA9)  -- XOR C
  | .Negate inner, cg => do
    let (_, cg) ← gen_expression inner cg
    .ok (false, emit_bytes [0xED, 0x44] cg)        -- NEG
  | .Not inner, cg => do
    let (_, cg) ← gen_expression inner cg
    .ok (false, emit 0x2F cg)                      -- CPL
  | .FunctionCall name args, cg => do
    let cg ← gen_args_rev args cg
    let cg :=
      match cg.procedures.lookup name with
      | some addr => cg |> emit 0xCD |> emit_word addr
      | none => cg |> emit 0xCD |> emit_word 0x0000  -- unreferenced forward slot
    .ok (false, emit_bytes (List.replicate args.length 0xC1) cg)  -- POP BC per arg
  | .AddressOf name, cg =>
    match cg.globals.lookup name with
    | some info => .ok (true, emit_load_word info.address cg)
    | none => .error (.UndefinedVariable name)
  | .ArrayAccess array index, cg =>
    match cg.globals.lookup array with
    | none => .error (.UndefinedVariable array)
    | some info => do
      let cg := emit_load_word info.address cg
      let cg := emit 0xE5 cg                       -- PUSH HL
      let (_, cg) ← gen_expression index cg
      .ok (false, cg |> emit 0x5F |> emit 0x16 |> emit 0 |> emit 0xE1 |> emit 0x19
                     |> emit 0x7E)                 -- LD A,(HL)
  | _, _ => .error (.CodeGenError "Unsupported expression")

/-- The `for arg in args.iter().rev()` loop of the call paths: generate each
argument from last to first, pushing `AF` after each. -/
def gen_args_rev : List Expression → CodeGenerator → Except CompileError CodeGenerator
  | [], cg => .ok cg
  | arg :: rest, cg => do
    let cg ← gen_args_rev rest cg
    let (_, cg) ← gen_expression arg cg
    .ok (emit 0xF5 cg)                             -- PUSH AF

end

/-- The non-intrinsic procedure-call path shared by the tail of the
`Statement::ProcCall` arm. -/
def gen_proc_call_default (name : String) (args : List Expression)
    (cg : CodeGenerator) : Except CompileError CodeGenerator := do
  let cg ← gen_args_rev args cg
  let cg :=
    match cg.procedures.lookup name with
    | some addr => cg |> emit 0xCD |> emit_word addr
    | none => cg |> emit 0xCD |> emit_word 0x0000
  .ok (emit_bytes (List.replicate args.length 0xC1) cg)

mutual

/-- `CodeGenerator::gen_statement`, arm for arm.  `PointerAssignment` and
`Until` fall to the final arm (`_ => Ok(())` in the source). -/
def gen_statement : Statement → CodeGenerator → Except CompileError CodeGenerator
  | .VarDecl _, cg => .ok cg
  | .Assignment target value, cg => do
    let (is_word, cg) ← gen_expression value cg
    if is_word then emit_store_var target true cg
    else emit_store_var target false cg
  | .ArrayAssignment array index value, cg =>
    match cg.globals.lookup array with
    | none => .error (.UndefinedVariable array)
    | some info => do
      let (_, cg) ← gen_expression value cg
      let cg := emit 0x47 cg                       -- LD B,A
      let cg := emit_load_word info.address cg
      let cg := emit 0xE5 cg                       -- PUSH HL
      let (_, cg) ← gen_expression index cg
      .ok (cg |> emit 0x5F |> emit 0x16 |> emit 0 |> emit 0xE1 |> emit 0x19
              |> emit 0x78 |> emit 0x77)           -- LD A,B ; LD (HL),A
  | .If condition then_block else_block, cg => do
    let (_, cg) ← gen_expression condition cg
    let cg := emit 0xA7 cg                         -- AND A
    let else_jump := current_address cg
    let cg := cg |> emit 0xCA |> emit_word 0x0000  -- JP Z, placeholder
    let cg ← gen_statements then_block cg
    match else_block with
    | some else_stmts => do
      let end_jump := current_address cg
      let cg := cg |> emit 0xC3 |> emit_word 0x0000
      let else_addr := current_address cg
      let cg := patch_word ((else_jump + 1) % 65536) else_addr cg
      let cg ← gen_statements else_stmts cg
      let end_addr := current_address cg
      .ok (patch_word ((end_jump + 1) % 65536) end_addr cg)
    | none =>
      let end_addr := current_address cg
      .ok (patch_word ((else_jump + 1) % 65536) end_addr cg)
  | .While condition body, cg => do
    let loop_start := current_address cg
    let (_, cg) ← gen_expression condition cg
    let cg := emit 0xA7 cg
    let exit_jump := current_address cg
    let cg := cg |> emit 0xCA |> emit_word 0x0000
    let cg := { cg with loop_stack := (loop_start, 0) :: cg.loop_stack }
    let cg ← gen_statements body cg
    let cg := cg |> emit 0xC3 |> emit_word loop_start
    let loop_end := current_address cg
    let cg := patch_word ((exit_jump + 1) % 65536) loop_end cg
    .ok { cg with loop_stack := cg.loop_stack.tail }
  | .For var start stop step body, cg => do
    let (_, cg) ← gen_expression start cg
    let cg ← emit_store_var var false cg
    let loop_start := current_address cg
    let (_, cg) ← emit_load_var var cg
    let cg := emit 0x47 cg                         -- LD B,A
    let (_, cg) ← gen_expression stop cg
    let cg := cg |> emit 0x4F |> emit 0x78 |> emit 0xB9  -- LD C,A ; LD A,B ; CP C
    let exit_jump := current_address cg
    let cg := cg |> emit 0xCA |> emit_word 0x0000  -- JP Z (continue)
    let cg := emit 0xDA cg                         -- JP C (continue)
    let exit_jump2 := current_address cg - 3
    let cg := emit_word 0x0000 cg
    let _real_exit := current_address cg
    let cg := cg |> emit 0xC3 |> emit_word 0x0000
    let exit_patch := current_address cg - 2
    let continue_addr := current_address cg
    let cg := patch_word ((exit_jump + 1) % 65536) continue_addr cg
    let cg := patch_word exit_jump2 continue_addr cg
    let cg ← gen_statements body cg
    let (_, cg) ← emit_load_var var cg
    let cg ← match step with
      | some step_expr => do
        let cg := emit 0x47 cg                     -- LD B,A
        let (_, cg) ← gen_expression step_expr cg
        pure (emit 0x80 cg)                        -- ADD A,B
      | none => pure (emit 0x3C cg)                -- INC A
    let cg ← emit_store_var var false cg
    let cg := cg |> emit 0xC3 |> emit_word loop_start
    let loop_end := current_address cg
    .ok (patch_word exit_patch loop_end cg)
  | .Exit, cg =>
    match cg.loop_stack.head? with
    | some (_, endAddr) =>
      if endAddr ≠ 0 then
        .ok (cg |> emit 0xC3 |> emit_word endAddr)
      else
        .ok (cg |> emit 0xC3 |> emit_word 0x0000)  -- forward ref, unresolved
    | none => .ok cg
  | .Return value, cg => do
    let cg ← match value with
      | some expr => do
        let (_, cg) ← gen_expression expr cg
        pure cg
      | none => pure cg
    .ok (emit 0xC9 cg)                             -- RET
  | .ProcCall name args, cg =>
    match cg.runtime with
    | some rt =>
      match rt.get_function name with
      | some addr =>
        match upperStr name with
        | "PRINTB" => do
          let cg ← match args.head? with
            | some a => do
              let (_, cg) ← gen_expression a cg
              pure cg
            | none => pure cg
          .ok (cg |> emit 0xCD |> emit_word addr)
        | "PRINTC" => do
          let cg ← match args.head? with
            | some a => do
              let (_, cg) ← gen_expression a cg
              pure (cg |> emit 0x6F |> emit 0x26 |> emit 0)  -- move A into HL
            | none => pure cg
          .ok (cg |> emit 0xCD |> emit_word addr)
        | "PRINTE" => .ok (cg |> emit 0xCD |> emit_word addr)
        | "GETD" => .ok (cg |> emit 0xCD |> emit_word addr)
        | "PUTD" => do
          let cg ← match args.head? with
            | some a => do
              let (_, cg) ← gen_expression a cg
              pure cg
            | none => pure cg
          .ok (cg |> emit 0xCD |> emit_word addr)
        | "PRINT" => do
          let cg ← match args.head? with
            | some a => do
              let (_, cg) ← gen_expression a cg
              pure cg
            | none => pure cg
          .ok (cg |> emit 0xCD |> emit_word addr)
        | _ => gen_proc_call_default name args cg
      | none => gen_proc_call_default name args cg
    | none => gen_proc_call_default name args cg
  | .Block statements, cg => gen_statements statements cg
  | _, cg => .ok cg

/-- The statement-list loops (`for stmt in block`). -/
def gen_statements : List Statement → CodeGenerator → Except CompileError CodeGenerator
  | [], cg => .ok cg
  | stmt :: rest, cg => do
    let cg ← gen_statement stmt cg
    gen_statements rest cg

end

/-- `CodeGenerator::gen_procedure`: record the entry address, clear locals,
spill the declared locals into the *global* map at `data_offset` (the
source's simplification), generate the body, and close with `RET`. -/
def gen_procedure (proc : Procedure) (cg : CodeGenerator) :
    Except CompileError CodeGenerator := do
  let proc_addr := current_address cg
  let cg := { cg with procedures := (proc.name, proc_addr) :: cg.procedures,
                      locals := [] }
  let cg := proc.locals.foldl
    (fun c localVar =>
      { c with
        globals := (localVar.name,
          ⟨c.data_offset, localVar.data_type, false, none⟩) :: c.globals,
        data_offset := (c.data_offset + localVar.data_type.size % 65536) % 65536 })
    cg
  let cg ← gen_statements proc.body cg
  .ok (emit 0xC9 cg)                               -- RET

/-- The `for proc in &program.procedures` loop of `generate`. -/
def gen_procedures : List Procedure → CodeGenerator → Except CompileError CodeGenerator
  | [], cg => .ok cg
  | proc :: rest, cg => do
    let cg ← gen_procedure proc cg
    gen_procedures rest cg

/-- `CodeGenerator::generate`: allocate globals from `0x2000`, emit the
`CALL 0000 ; HALT` entry stub, generate the procedures, then patch the stub
operand to `Main`, else `main`, else the first procedure.  Mirrors the
source's `&mut self` method by returning the final state beside the code. -/
def generate (program : Program) (cg : CodeGenerator) :
    Except CompileError (List Nat × CodeGenerator) := do
  let (cg, var_addr) := program.globals.foldl
    (fun (p : CodeGenerator × Nat) var =>
      ({ p.1 with globals := (var.name,
          ⟨p.2, var.data_type, false, none⟩) :: p.1.globals },
       (p.2 + var.data_type.size % 65536) % 65536))
    (cg, 0x2000)
  let cg := { cg with data_offset := var_addr }
  let main_call := current_address cg
  let cg := cg |> emit 0xCD |> emit_word 0x0000 |> emit 0x76  -- CALL 0 ; HALT
  let cg ← gen_procedures program.procedures cg
  let cg :=
    match cg.procedures.lookup "Main" with
    | some main_addr => patch_word ((main_call + 1) % 65536) main_addr cg
    | none =>
      match cg.procedures.lookup "main" with
      | some main_addr => patch_word ((main_call + 1) % 65536) main_addr cg
      | none =>
        match program.procedures.head? with
        | some proc =>
          match cg.procedures.lookup proc.name with
          | some addr => patch_word ((main_call + 1) % 65536) addr cg
          | none => cg
        | none => cg
  .ok (cg.code, cg)

/-! ## main.rs

The driver (lines 96–130 of src/main.rs): place the runtime at `org + 3`,
generate program code at the runtime's end address, and concatenate
`JP code_start`, the runtime blob and the program code.  File I/O and flag
handling are out of scope; the compose step takes the already-parsed
program. -/

/-- The binary-composition core of `main` (the source destructures the
`generate_runtime` pair; the two components are taken by projection here). -/
def compile (org : Nat) (program : Program) : Except CompileError (List Nat) := do
  let runtime_start := org + 3
  let rt := generate_runtime runtime_start
  let runtime_code := rt.1
  let runtime_symbols := rt.2
  let code_start := runtime_symbols.end_address
  let cg := CodeGenerator.new code_start
  let cg := cg.set_runtime_symbols runtime_symbols
  let r ← generate program cg
  .ok ([0xC3, code_start % 256, code_start / 256 % 256] ++ runtime_code ++ r.1)

/-! ## lexer.rs (keyword recognition)

`Lexer::read_identifier` scans `[A-Za-z0-9_]*` and then classifies the
scanned string; the classification step is the part the claims are about.
-/

/-- The keyword table of `Lexer::read_identifier`: the `match` on the
upper-cased identifier. -/
def keywordOf : String → Option Token
  | "BYTE" => some .Byte
  | "CARD" => some .Card
  | "INT" => some .Int
  | "CHAR" => some .Char_
  | "ARRAY" => some .Array
  | "IF" => some .If
  | "THEN" => some .Then
  | "ELSE" => some .Else
  | "ELSEIF" => some .ElseIf
  | "FI" => some .Fi
  | "WHILE" => some .While
  | "DO" => some .Do
  | "OD" => some .Od
  | "FOR" => some .For
  | "TO" => some .To
  | "STEP" => some .Step
  | "UNTIL" => some .Until
  | "EXIT" => some .Exit
  | "RETURN" => some .Return
  | "PROC" => some .Proc
  | "FUNC" => some .Func
  | "MODULE" => some .Module
  | "MOD" => some .Mod
  | "LSH" => some .Lsh
  | "RSH" => some .Rsh
  | "AND" => some .And
  | "OR" => some .Or
  | "XOR" => some .Xor
  | "NOT" => some .Not
  | _ => none

/-- The classification step of `Lexer::read_identifier`: upper-case the
scanned identifier, look it up in the keyword table, and otherwise keep the
identifier with its original spelling. -/
def read_identifier (ident : String) : Token :=
  match keywordOf (upperStr ident) with
  | some t => t
  | none => .Identifier ident

/-! ## parser.rs

`Parser` holds `Vec<TokenInfo>` and a cursor; the claims do not involve the
line/column metadata, so tokens are modelled as the plain token list (error
values that would embed a line number use 0, and `{:?}`-formatted token
dumps inside error strings use `reprStr`).  The mutually recursive
expression/statement grammar is embedded with an explicit fuel parameter:
every recursive call steps the fuel down, and exhausted fuel returns an
`InternalError` that no run with fuel above the token count reaches.  Each
`loop { ... }` in the source becomes a `*_loop` helper. -/

/-- The `Parser` state from src/parser.rs. -/
structure Parser where
  tokens : List Token
  pos : Nat
  deriving Repr

/-- `Parser::current` (yields `Eof` past the end). -/
def Parser.current (p : Parser) : Token := (p.tokens.get? p.pos).getD .Eof

/-- `Parser::advance`. -/
def Parser.advance (p : Parser) : Parser :=
  if p.pos < p.tokens.length then { p with pos := p.pos + 1 } else p

theorem Parser.current_newline_lt {p : Parser} (h : p.current = .Newline) :
    p.pos < p.tokens.length := by
  by_contra hge
  rw [Parser.current, List.get?_eq_none.mpr (by omega)] at h
  simp at h

/-- The body of the `while` loop of `Parser::skip_newlines`, unrolled at
most `n` times.  `n = tokens.length - pos` steps always suffice: past the
end `current` is `Eof`, so the loop has stopped by then; the explicit
countdown keeps the function structurally recursive (hence evaluable by the
kernel). -/
def Parser.skip_newlines_aux : Nat → Parser → Parser
  | 0, p => p
  | n + 1, p => if p.current == .Newline then Parser.skip_newlines_aux n p.advance else p

/-- `Parser::skip_newlines`. -/
def Parser.skip_newlines (p : Parser) : Parser :=
  Parser.skip_newlines_aux (p.tokens.length - p.pos) p

/-- `Parser::expect`. -/
def expect (expected : Token) (p : Parser) : Except CompileError Parser :=
  let p := p.skip_newlines
  if p.current == expected then .ok p.advance
  else .error (.UnexpectedToken (reprStr expected) (reprStr p.current))

/-- `Parser::expect_identifier`. -/
def expect_identifier (p : Parser) : Except CompileError (String × Parser) :=
  let p := p.skip_newlines
  match p.current with
  | .Identifier name => .ok (name, p.advance)
  | t => .error (.UnexpectedToken "identifier" (reprStr t))

/-- `Parser::parse_number`. -/
def parse_number (p : Parser) : Except CompileError (Int × Parser) :=
  let p := p.skip_newlines
  match p.current with
  | .Number n => .ok (n, p.advance)
  | t => .error (.UnexpectedToken "number" (reprStr t))

/-- Rust `i32 as usize` (two's-complement reinterpretation into 64 bits). -/
def i32_as_usize (n : Int) : Nat := (n % (2 ^ 64)).toNat

/-- `Parser::parse_type`: a base scalar type, optionally followed by `ARRAY`
with an optional parenthesized size (default 256). -/
def parse_type (p : Parser) : Except CompileError (DataType × Parser) := do
  let p := p.skip_newlines
  let (base_type, p) ←
    match p.current with
    | .Byte => .ok (DataType.Byte, p.advance)
    | .Card => .ok (DataType.Card, p.advance)
    | .Int => .ok (DataType.Int, p.advance)
    | .Char_ => .ok (DataType.Char, p.advance)
    | t => .error (.ParserError 0 ("Expected type, found " ++ reprStr t))
  let p := p.skip_newlines
  if p.current == .Array then do
    let p := p.advance
    let p := p.skip_newlines
    let (size, p) ←
      if p.current == .LeftParen then do
        let p := p.advance
        let (size, p) ← parse_number p
        let p ← expect .RightParen p
        .ok (i32_as_usize size, p)
      else
        .ok (256, p)
    let arr :=
      match base_type with
      | .Byte | .Char => DataType.ByteArray size
      | .Card => DataType.CardArray size
      | .Int => DataType.IntArray size
      | _ => base_type
    .ok (arr, p)
  else
    .ok (base_type, p)

mutual

/-- `Parser::parse_primary`. -/
def parse_primary : Nat → Parser → Except CompileError (Expression × Parser)
  | 0, _ => .error (.InternalError "fuel")
  | fuel + 1, p =>
    let p := p.skip_newlines
    match p.current with
    | .Number n => .ok (.Number n, p.advance)
    | .StringLit s => .ok (.StringLit s, p.advance)
    | .CharLit c => .ok (.CharLit c, p.advance)
    | .Identifier name =>
      let p := p.advance
      let p := p.skip_newlines
      match p.current with
      | .LeftBracket => do
        let p := p.advance
        let (index, p) ← parse_expression fuel p
        let p ← expect .RightBracket p
        .ok (.ArrayAccess name index, p)
      | .LeftParen => do
        let p := p.advance
        let (args, p) ← parse_argument_list fuel p
        let p ← expect .RightParen p
        .ok (.FunctionCall name args, p)
      | _ => .ok (.Variable name, p)
    | .LeftParen => do
      let p := p.advance
      let (expr, p) ← parse_expression fuel p
      let p ← expect .RightParen p
      .ok (expr, p)
    | .At => do
      let (name, p) ← expect_identifier p.advance
      .ok (.AddressOf name, p)
    | .Caret => do
      let (expr, p) ← parse_primary fuel p.advance
      .ok (.Dereference expr, p)
    | .Minus => do
      let (expr, p) ← parse_unary fuel p.advance
      .ok (.Negate expr, p)
    | .Not => do
      let (expr, p) ← parse_unary fuel p.advance
      .ok (.Not expr, p)
    | t => .error (.ParserError 0 ("Unexpected token in expression: " ++ reprStr t))

/-- `Parser::parse_unary`. -/
def parse_unary : Nat → Parser → Except CompileError (Expression × Parser)
  | 0, _ => .error (.InternalError "fuel")
  | fuel + 1, p =>
    let p := p.skip_newlines
    match p.current with
    | .Minus => do
      let (expr, p) ← parse_unary fuel p.advance
      .ok (.Negate expr, p)
    | .Not => do
      let (expr, p) ← parse_unary fuel p.advance
      .ok (.Not expr, p)
    | _ => parse_primary fuel p

/-- `Parser::parse_multiplicative`. -/
def parse_multiplicative : Nat → Parser → Except CompileError (Expression × Parser)
  | 0, _ => .error (.InternalError "fuel")
  | fuel + 1, p => do
    let (left, p) ← parse_unary fuel p
    parse_mul_loop fuel left p

def parse_mul_loop : Nat → Expression → Parser → Except CompileError (Expression × Parser)
  | 0, _, _ => .error (.InternalError "fuel")
  | fuel + 1, left, p =>
    let p := p.skip_newlines
    match p.current with
    | .Star => do
      let (right, p) ← parse_unary fuel p.advance
      parse_mul_loop fuel (.Multiply left right) p
    | .Slash => do
      let (right, p) ← parse_unary fuel p.advance
      parse_mul_loop fuel (.Divide left right) p
    | .Mod => do
      let (right, p) ← parse_unary fuel p.advance
      parse_mul_loop fuel (.Modulo left right) p
    | _ => .ok (left, p)

/-- `Parser::parse_additive`. -/
def parse_additive : Nat → Parser → Except CompileError (Expression × Parser)
  | 0, _ => .error (.InternalError "fuel")
  | fuel + 1, p => do
    let (left, p) ← parse_multiplicative fuel p
    parse_add_loop fuel left p

def parse_add_loop : Nat → Expression → Parser → Except CompileError (Expression × Parser)
  | 0, _, _ => .error (.InternalError "fuel")
  | fuel + 1, left, p =>
    let p := p.skip_newlines
    match p.current with
    | .Plus => do
      let (right, p) ← parse_multiplicative fuel p.advance
      parse_add_loop fuel (.Add left right) p
    | .Minus => do
      let (right, p) ← parse_multiplicative fuel p.advance
      parse_add_loop fuel (.Subtract left right) p
    | _ => .ok (left, p)

/-- `Parser::parse_shift`. -/
def parse_shift : Nat → Parser → Except CompileError (Expression × Parser)
  | 0, _ => .error (.InternalError "fuel")
  | fuel + 1, p => do
    let (left, p) ← parse_additive fuel p
    parse_shift_loop fuel left p

def parse_shift_loop : Nat → Expression → Parser → Except CompileError (Expression × Parser)
  | 0, _, _ => .error (.InternalError "fuel")
  | fuel + 1, left, p =>
    let p := p.skip_newlines
    match p.current with
    | .Lsh => do
      let (right, p) ← parse_additive fuel p.advance
      parse_shift_loop fuel (.LeftShift left right) p
    | .Rsh => do
      let (right, p) ← parse_additive fuel p.advance
      parse_shift_loop fuel (.RightShift left right) p
    | _ => .ok (left, p)

/-- `Parser::parse_comparison`. -/
def parse_comparison : Nat → Parser → Except CompileError (Expression × Parser)
  | 0, _ => .error (.InternalError "fuel")
  | fuel + 1, p => do
    let (left, p) ← parse_shift fuel p
    parse_cmp_loop fuel left p

def parse_cmp_loop : Nat → Expression → Parser → Except CompileError (Expression × Parser)
  | 0, _, _ => .error (.InternalError "fuel")
  | fuel + 1, left, p =>
    let p := p.skip_newlines
    match p.current with
    | .Equal => do
      let (right, p) ← parse_shift fuel p.advance
      parse_cmp_loop fuel (.Equal left right) p
    | .NotEqual => do
      let (right, p) ← parse_shift fuel p.advance
      parse_cmp_loop fuel (.NotEqual left right) p
    | .Less => do
      let (right, p) ← parse_shift fuel p.advance
      parse_cmp_loop fuel (.Less left right) p
    | .LessEqual => do
      let (right, p) ← parse_shift fuel p.advance
      parse_cmp_loop fuel (.LessEqual left right) p
    | .Greater => do
      let (right, p) ← parse_shift fuel p.advance
      parse_cmp_loop fuel (.Greater left right) p
    | .GreaterEqual => do
      let (right, p) ← parse_shift fuel p.advance
      parse_cmp_loop fuel (.GreaterEqual left right) p
    | _ => .ok (left, p)

/-- `Parser::parse_and`. -/
def parse_and : Nat → Parser → Except CompileError (Expression × Parser)
  | 0, _ => .error (.InternalError "fuel")
  | fuel + 1, p => do
    let (left, p) ← parse_comparison fuel p
    parse_and_loop fuel left p

def parse_and_loop : Nat → Expression → Parser → Except CompileError (Expression × Parser)
  | 0, _, _ => .error (.InternalError "fuel")
  | fuel + 1, left, p =>
    let p := p.skip_newlines
    if p.current == .And then do
      let (right, p) ← parse_comparison fuel p.advance
      parse_and_loop fuel (.And left right) p
    else .ok (left, p)

/-- `Parser::parse_or` (also handles `XOR`). -/
def parse_or : Nat → Parser → Except CompileError (Expression × Parser)
  | 0, _ => .error (.InternalError "fuel")
  | fuel + 1, p => do
    let (left, p) ← parse_and fuel p
    parse_or_loop fuel left p

def parse_or_loop : Nat → Expression → Parser → Except CompileError (Expression × Parser)
  | 0, _, _ => .error (.InternalError "fuel")
  | fuel + 1, left, p =>
    let p := p.skip_newlines
    match p.current with
    | .Or => do
      let (right, p) ← parse_and fuel p.advance
      parse_or_loop fuel (.Or left right) p
    | .Xor => do
      let (right, p) ← parse_and fuel p.advance
      parse_or_loop fuel (.Xor left right) p
    | _ => .ok (left, p)

/-- `Parser::parse_expression`. -/
def parse_expression : Nat → Parser → Except CompileError (Expression × Parser)
  | 0, _ => .error (.InternalError "fuel")
  | fuel + 1, p => parse_or fuel p

/-- `Parser::parse_argument_list`. -/
def parse_argument_list : Nat → Parser → Except CompileError (List Expression × Parser)
  | 0, _ => .error (.InternalError "fuel")
  | fuel + 1, p =>
    let p := p.skip_newlines
    if p.current == .RightParen then .ok ([], p)
    else do
      let (arg, p) ← parse_expression fuel p
      parse_args_loop fuel [arg] p

def parse_args_loop : Nat → List Expression → Parser →
    Except CompileError (List Expression × Parser)
  | 0, _, _ => .error (.InternalError "fuel")
  | fuel + 1, args, p =>
    if p.current == .Comma then do
      let (arg, p) ← parse_expression fuel p.advance
      parse_args_loop fuel (args ++ [arg]) p
    else .ok (args, p)

/-- `Parser::parse_var_decl`. -/
def parse_var_decl : Nat → Parser → Except CompileError (Variable × Parser)
  | 0, _ => .error (.InternalError "fuel")
  | fuel + 1, p => do
    let (data_type, p) ← parse_type p
    let (name, p) ← expect_identifier p
    let (initial_value, p) ←
      if p.current == .Equal then do
        let (e, p) ← parse_expression fuel p.advance
        Except.ok (some e, p)
      else .ok (none, p)
    .ok (⟨name, data_type, initial_value⟩, p)

/-- `Parser::parse_statement`.  Returns `none` at a block terminator. -/
def parse_statement : Nat → Parser → Except CompileError (Option Statement × Parser)
  | 0, _ => .error (.InternalError "fuel")
  | fuel + 1, p =>
    let p := p.skip_newlines
    match p.current with
    | .Eof | .Od | .Fi | .Until => .ok (none, p)
    | .Byte | .Card | .Int | .Char_ => do
      let (var, p) ← parse_var_decl fuel p
      .ok (some (.VarDecl var), p)
    | .If => do
      let p := p.advance
      let (condition, p) ← parse_expression fuel p
      let p := p.skip_newlines
      let p := if p.current == .Then then p.advance else p
      let (then_block, p) ← parse_block fuel p
      let (else_block, p) ←
        if p.current == .Else then do
          let (b, p) ← parse_block fuel p.advance
          Except.ok (some b, p)
        else .ok (none, p)
      let p ← expect .Fi p
      .ok (some (.If condition then_block else_block), p)
    | .While => do
      let p := p.advance
      let (condition, p) ← parse_expression fuel p
      let p ← expect .Do p
      let (body, p) ← parse_block fuel p
      let p ← expect .Od p
      .ok (some (.While condition body), p)
    | .For => do
      let p := p.advance
      let (var, p) ← expect_identifier p
      let p ← expect .Equal p
      let (start, p) ← parse_expression fuel p
      let p ← expect .To p
      let (stop, p) ← parse_expression fuel p
      let (step, p) ←
        if p.current == .Step then do
          let (e, p) ← parse_expression fuel p.advance
          Except.ok (some e, p)
        else .ok (none, p)
      let p ← expect .Do p
      let (body, p) ← parse_block fuel p
      let p ← expect .Od p
      .ok (some (.For var start stop step body), p)
    | .Exit => .ok (some .Exit, p.advance)
    | .Return =>
      let p := p.advance
      let p := p.skip_newlines
      (match p.current with
       | .Newline | .Eof | .Od | .Fi => .ok (some (.Return none), p)
       | _ => do
         let (e, p) ← parse_expression fuel p
         .ok (some (.Return (some e)), p))
    | .Identifier name =>
      let p := p.advance
      let p := p.skip_newlines
      match p.current with
      | .LeftBracket => do
        let p := p.advance
        let (index, p) ← parse_expression fuel p
        let p ← expect .RightBracket p
        let p ← expect .Equal p
        let (value, p) ← parse_expression fuel p
        .ok (some (.ArrayAssignment name index value), p)
      | .Equal => do
        let (value, p) ← parse_expression fuel p.advance
        .ok (some (.Assignment name value), p)
      | .LeftParen => do
        let p := p.advance
        let (args, p) ← parse_argument_list fuel p
        let p ← expect .RightParen p
        .ok (some (.ProcCall name args), p)
      | _ => .ok (some (.ProcCall name []), p)
    | .Caret => do
      let p := p.advance
      let (pointer, p) ← parse_primary fuel p
      let p ← expect .Equal p
      let (value, p) ← parse_expression fuel p
      .ok (some (.PointerAssignment pointer value), p)
    | .Newline => parse_statement fuel p.advance
    | t => .error (.ParserError 0 ("Unexpected token: " ++ reprStr t))

/-- `Parser::parse_block`. -/
def parse_block : Nat → Parser → Except CompileError (List Statement × Parser)
  | 0, _ => .error (.InternalError "fuel")
  | fuel + 1, p => parse_block_loop fuel [] p.skip_newlines

def parse_block_loop : Nat → List Statement → Parser →
    Except CompileError (List Statement × Parser)
  | 0, _, _ => .error (.InternalError "fuel")
  | fuel + 1, statements, p =>
    match p.current with
    | .Od | .Fi | .Else | .ElseIf | .Until | .Eof | .Return => .ok (statements, p)
    | _ => do
      let (stmtOpt, p) ← parse_statement fuel p
      match stmtOpt with
      | some stmt => parse_block_loop fuel (statements ++ [stmt]) p.skip_newlines
      | none => .ok (statements, p)

end

/-! ## Shared facts and test programs -/

theorem Token.beq_newline_eq_false {t : Token} (h : t ≠ Token.Newline) :
    (t == Token.Newline) = false := by
  cases t <;> first | rfl | exact absurd rfl h

theorem Parser.skip_newlines_of_ne {p : Parser} (h : p.current ≠ .Newline) :
    p.skip_newlines = p := by
  rw [Parser.skip_newlines]
  cases hn : p.tokens.length - p.pos <;>
    simp [Parser.skip_newlines_aux, Token.beq_newline_eq_false h]

theorem Parser.skip_newlines_aux_current_ne (n : Nat) (p : Parser)
    (hn : p.tokens.length - p.pos ≤ n) :
    (Parser.skip_newlines_aux n p).current ≠ Token.Newline := by
  induction n generalizing p with
  | zero =>
    intro hcur
    have := Parser.current_newline_lt (p := p) (by simpa [Parser.skip_newlines_aux] using hcur)
    omega
  | succ n ih =>
    by_cases h : p.current = .Newline
    · have hlt := Parser.current_newline_lt h
      rw [Parser.skip_newlines_aux, if_pos (show (p.current == Token.Newline) = true by rw [h]; rfl)]
      exact ih p.advance (by simp only [Parser.advance, if_pos hlt]; omega)
    · rw [Parser.skip_newlines_aux,
        if_neg (by simp [Token.beq_newline_eq_false h])]
      exact h

theorem Parser.skip_newlines_current_ne (p : Parser) :
    p.skip_newlines.current ≠ Token.Newline :=
  Parser.skip_newlines_aux_current_ne _ p le_rfl

/-- A one-statement `FOR` program: `BYTE i` at top level and
`PROC Main` whose body is `FOR i = 1 TO 3 DO OD`. -/
def forProg : Program :=
  { globals := [⟨"i", .Byte, none⟩],
    procedures := [⟨"Main", [], none, [],
      [.For "i" (.Number 1) (.Number 3) none []]⟩] }

/-- The code `generate` produces for `forProg` at origin 0. -/
def forProgCode : List Nat :=
  [0xCD, 0x04, 0x00, 0x76,                         -- CALL Main ; HALT
   0x3E, 0x01, 0x32, 0x00, 0x20,                   -- LD A,1 ; LD (2000h),A
   0x3A, 0x00, 0x20, 0x47,                         -- LD A,(2000h) ; LD B,A
   0x3E, 0x03, 0x4F, 0x78, 0xB9,                   -- LD A,3 ; LD C,A ; LD A,B ; CP C
   0xCA, 0x1B, 0x00,                               -- JP Z, 001Bh (continue)
   0xDA, 0x00, 0x00,                               -- JP C, 0000h (never patched)
   0xC3, 0x25, 0x00,                               -- JP 0025h (loop exit)
   0x3A, 0x00, 0x20, 0x3C, 0x32, 0x00, 0x20,       -- LD A,(2000h) ; INC A ; LD (2000h),A
   0xC3, 0x09, 0x00,                               -- JP 0009h (loop start)
   0xC9]                                           -- RET

/-- Two empty procedures named `Foo` then `MAIN` (upper-case). -/
def prog2 : Program :=
  { globals := [],
    procedures := [⟨"Foo", [], none, [], []⟩, ⟨"MAIN", [], none, [], []⟩] }

/-- `PROC Main` whose body is `UNTIL x DO OD`-shaped, with `x` never
declared anywhere. -/
def untilProg : Program :=
  { globals := [],
    procedures := [⟨"Main", [], none, [], [.Until (.Variable "x") []]⟩] }

/-- `PROC Main` whose body is `RETURN x`, with `x` never declared. -/
def badProg : Program :=
  { globals := [],
    procedures := [⟨"Main", [], none, [], [.Return (some (.Variable "x"))]⟩] }

/-! ## Claims -/

/-- Claim C10: compiling an `EXIT` statement with an empty loop stack
succeeds, emits no bytes, and leaves the whole generator state unchanged. -/
theorem exit_outside_loop_is_noop (cg : CodeGenerator) (h : cg.loop_stack = []) :
    gen_statement .Exit cg = .ok cg := by
  simp [gen_statement, h]

/-- Witness for C10 at a freshly constructed generator. -/
theorem exit_outside_loop_is_noop_witness :
    gen_statement .Exit (CodeGenerator.new 0x4200) = .ok (CodeGenerator.new 0x4200) :=
  exit_outside_loop_is_noop (CodeGenerator.new 0x4200) rfl

/-- Claim C1 (failing input): generating code for `forProg` at origin 0
leaves the `JP C` emitted for the loop-exit test holding the `0x0000`
placeholder (bytes 21–23 of the output are `DA 00 00`): `exit_jump2` is
computed as `current_address() - 3`, which is the operand address of the
preceding `JP Z`, so the patch to the continue point lands on the already
patched `JP Z` operand and the `JP C` operand is never patched. -/
theorem for_loop_exit_branch_left_unpatched :
    (generate forProg (CodeGenerator.new 0)).map Prod.fst = .ok forProgCode ∧
    forProgCode.get? 21 = some 0xDA ∧
    forProgCode.get? 22 = some 0x00 ∧
    forProgCode.get? 23 = some 0x00 := by
  exact ⟨rfl, rfl, rfl, rfl⟩

/-- Claim C2 (counterexample): in `prog2` the procedure `MAIN` is defined
(at address 5) but the entry stub is patched to the address 4 of the first
procedure `Foo`: `generate` looks up only the exact spellings `"Main"` and
`"main"`, so an upper-case `MAIN` is not used as the entry. -/
theorem entry_patch_ignores_uppercase_MAIN :
    (generate prog2 (CodeGenerator.new 0)).map Prod.fst =
      .ok [0xCD, 0x04, 0x00, 0x76, 0xC9, 0xC9] ∧
    (generate prog2 (CodeGenerator.new 0)).map
      (fun r => r.2.procedures.lookup "MAIN") = .ok (some 5) ∧
    (4 : Nat) ≠ 5 := by
  exact ⟨rfl, rfl, by decide⟩

/-- Claim C6 (counterexample): `untilProg` references the undeclared
variable `x` inside an `UNTIL` statement, yet code generation succeeds and
returns code — the generator never visits expressions of statements it does
not implement, so no `UndefinedVariable` error is raised. -/
theorem undefined_variable_in_skipped_statement_compiles :
    (generate untilProg (CodeGenerator.new 0)).map Prod.fst =
      .ok [0xCD, 0x04, 0x00, 0x76, 0xC9] ∧
    untilProg.globals = [] ∧
    untilProg.procedures.all (fun pr => pr.locals.isEmpty) = true := by
  exact ⟨rfl, rfl, rfl⟩

/-- Claim C6 (amended): whenever the generator *evaluates* a variable
reference, address-of, or array access whose name has no binding in its
symbol tables, it fails with `UndefinedVariable` naming that identifier;
and a compile that reaches such an expression (here `badProg`, whose `Main`
returns the undeclared `x`) aborts with that error and produces no code. -/
theorem undefined_variable_expression_errors (cg : CodeGenerator) (name : String)
    (idx : Expression) (hl : cg.locals.lookup name = none)
    (hg : cg.globals.lookup name = none) :
    gen_expression (.Variable name) cg = .error (.UndefinedVariable name) ∧
    gen_expression (.AddressOf name) cg = .error (.UndefinedVariable name) ∧
    gen_expression (.ArrayAccess name idx) cg = .error (.UndefinedVariable name) ∧
    generate badProg (CodeGenerator.new 0) = .error (.UndefinedVariable "x") := by
  refine ⟨?_, ?_, ?_, rfl⟩
  · simp [gen_expression, emit_load_var, hl, hg, Bind.bind, Except.bind]
  · simp [gen_expression, hg]
  · simp [gen_expression, hg]

/-- Witness for the amended C6 at a fresh generator and the name `y`. -/
theorem undefined_variable_expression_errors_witness :
    gen_expression (.Variable "y") (CodeGenerator.new 0) =
      .error (.UndefinedVariable "y") ∧
    gen_expression (.AddressOf "y") (CodeGenerator.new 0) =
      .error (.UndefinedVariable "y") ∧
    gen_expression (.ArrayAccess "y" (.Number 0)) (CodeGenerator.new 0) =
      .error (.UndefinedVariable "y") ∧
    generate badProg (CodeGenerator.new 0) = .error (.UndefinedVariable "x") :=
  undefined_variable_expression_errors (CodeGenerator.new 0) "y" (.Number 0) rfl rfl

theorem generate_runtime_symbols_closed_form (b : Nat) :
    (generate_runtime b).2 =
      ⟨b, b + 32, b + 43, b + 52, b + 60, b + 69, b + 72, b + 92, b + 106⟩ := by
  simp [generate_runtime]

theorem generate_runtime_length (b : Nat) :
    (generate_runtime b).1.length = 106 := by
  simp [generate_runtime]

/-- Claim C5: for every base address (kept inside the 16-bit space so that
the source's `u16` counter does not wrap), `generate_runtime` returns a
blob and symbols with `end_address = base + blob.length`, and every routine
entry address lies in `[base, end_address)` — the address counter stays in
lock-step with the bytes pushed. -/
theorem runtime_address_counter_in_lockstep (b : Nat) (_hb : b + 106 ≤ 65535) :
    (generate_runtime b).2.end_address = b + (generate_runtime b).1.length ∧
    (b ≤ (generate_runtime b).2.print_b ∧
      (generate_runtime b).2.print_b < (generate_runtime b).2.end_address) ∧
    (b ≤ (generate_runtime b).2.print_c ∧
      (generate_runtime b).2.print_c < (generate_runtime b).2.end_address) ∧
    (b ≤ (generate_runtime b).2.print_e ∧
      (generate_runtime b).2.print_e < (generate_runtime b).2.end_address) ∧
    (b ≤ (generate_runtime b).2.print ∧
      (generate_runtime b).2.print < (generate_runtime b).2.end_address) ∧
    (b ≤ (generate_runtime b).2.get_d ∧
      (generate_runtime b).2.get_d < (generate_runtime b).2.end_address) ∧
    (b ≤ (generate_runtime b).2.put_d ∧
      (generate_runtime b).2.put_d < (generate_runtime b).2.end_address) ∧
    (b ≤ (generate_runtime b).2.multiply ∧
      (generate_runtime b).2.multiply < (generate_runtime b).2.end_address) ∧
    (b ≤ (generate_runtime b).2.div8 ∧
      (generate_runtime b).2.div8 < (generate_runtime b).2.end_address) := by
  rw [generate_runtime_symbols_closed_form, generate_runtime_length]
  dsimp only
  omega

/-- Witness for C5 at the driver's default runtime base `0x4203`. -/
theorem runtime_address_counter_in_lockstep_witness :
    (generate_runtime 0x4203).2.end_address =
      0x4203 + (generate_runtime 0x4203).1.length ∧
    (0x4203 ≤ (generate_runtime 0x4203).2.print_b ∧
      (generate_runtime 0x4203).2.print_b < (generate_runtime 0x4203).2.end_address) ∧
    (0x4203 ≤ (generate_runtime 0x4203).2.print_c ∧
      (generate_runtime 0x4203).2.print_c < (generate_runtime 0x4203).2.end_address) ∧
    (0x4203 ≤ (generate_runtime 0x4203).2.print_e ∧
      (generate_runtime 0x4203).2.print_e < (generate_runtime 0x4203).2.end_address) ∧
    (0x4203 ≤ (generate_runtime 0x4203).2.print ∧
      (generate_runtime 0x4203).2.print < (generate_runtime 0x4203).2.end_address) ∧
    (0x4203 ≤ (generate_runtime 0x4203).2.get_d ∧
      (generate_runtime 0x4203).2.get_d < (generate_runtime 0x4203).2.end_address) ∧
    (0x4203 ≤ (generate_runtime 0x4203).2.put_d ∧
      (generate_runtime 0x4203).2.put_d < (generate_runtime 0x4203).2.end_address) ∧
    (0x4203 ≤ (generate_runtime 0x4203).2.multiply ∧
      (generate_runtime 0x4203).2.multiply < (generate_runtime 0x4203).2.end_address) ∧
    (0x4203 ≤ (generate_runtime 0x4203).2.div8 ∧
      (generate_runtime 0x4203).2.div8 < (generate_runtime 0x4203).2.end_address) :=
  runtime_address_counter_in_lockstep 0x4203 (by norm_num)

/-- The reserved set of the specification (upper-cased spellings). -/
def reserved_words : List String :=
  ["BYTE", "CARD", "INT", "CHAR", "ARRAY", "IF", "THEN", "ELSE", "ELSEIF",
   "FI", "WHILE", "DO", "OD", "FOR", "TO", "STEP", "UNTIL", "EXIT", "RETURN",
   "PROC", "FUNC", "MODULE", "MOD", "LSH", "RSH", "AND", "OR", "XOR", "NOT"]

/-- Tokens other than the literal/identifier payload tokens are keyword or
operator tokens; `read_identifier` only ever returns a keyword token or an
`Identifier`, so on its image this tests "became a keyword". -/
def is_keyword : Token → Bool
  | .Identifier _ | .Number _ | .StringLit _ | .CharLit _ => false
  | _ => true

theorem keywordOf_isSome_iff (s : String) :
    (keywordOf s).isSome = true ↔ s ∈ reserved_words := by
  constructor
  · intro h
    unfold keywordOf at h
    split at h <;> simp_all [reserved_words]
  · intro h
    simp [reserved_words] at h
    rcases h with rfl | rfl | rfl | rfl | rfl | rfl | rfl | rfl | rfl | rfl |
      rfl | rfl | rfl | rfl | rfl | rfl | rfl | rfl | rfl | rfl | rfl | rfl |
      rfl | rfl | rfl | rfl | rfl | rfl | rfl <;> rfl

theorem keywordOf_some_is_keyword (s : String) (t : Token)
    (h : keywordOf s = some t) : is_keyword t = true := by
  unfold keywordOf at h
  split at h <;> cases h <;> rfl

/-- Claim C7: keyword recognition is invariant under letter case — the
examples `IF`/`if`/`If` all classify as `Token.If`; a scanned identifier
becomes a keyword token exactly when its upper-casing is in the reserved
set; any other identifier keeps its original spelling; and which keyword
token results depends only on the upper-casing. -/
theorem keyword_recognition_case_insensitive :
    (read_identifier "IF" = .If ∧ read_identifier "if" = .If ∧
      read_identifier "If" = .If) ∧
    (∀ s : String, is_keyword (read_identifier s) = true ↔
      upperStr s ∈ reserved_words) ∧
    (∀ s : String, upperStr s ∉ reserved_words →
      read_identifier s = .Identifier s) ∧
    (∀ s t : String, upperStr s = upperStr t → upperStr s ∈ reserved_words →
      read_identifier s = read_identifier t) := by
  refine ⟨⟨rfl, rfl, rfl⟩, ?_, ?_, ?_⟩
  · intro s
    unfold read_identifier
    cases hk : keywordOf (upperStr s) with
    | none =>
      simp only [is_keyword]
      rw [← keywordOf_isSome_iff]
      simp [hk]
    | some t =>
      rw [keywordOf_some_is_keyword _ _ hk, ← keywordOf_isSome_iff]
      simp [hk]
  · intro s hmem
    unfold read_identifier
    cases hk : keywordOf (upperStr s) with
    | none => rfl
    | some t =>
      exact absurd ((keywordOf_isSome_iff _).mp (by simp [hk])) hmem
  · intro s t hst _hmem
    unfold read_identifier
    rw [hst]
    cases hk : keywordOf (upperStr t) with
    | none =>
      exfalso
      rw [hst] at _hmem
      have := (keywordOf_isSome_iff (upperStr t)).mpr _hmem
      simp [hk] at this
    | some kw => rfl

/-- Witness for C7: a non-keyword keeps its spelling, and two spellings of
`IF` classify identically. -/
theorem keyword_recognition_case_insensitive_witness :
    read_identifier "xyz" = .Identifier "xyz" ∧
    read_identifier "IF" = read_identifier "iF" :=
  ⟨keyword_recognition_case_insensitive.2.2.1 "xyz" (by decide),
   keyword_recognition_case_insensitive.2.2.2 "IF" "iF" (by decide) (by decide)⟩

/-- The four operations of the source that touch the code buffer or the
program counter, as reified actions for quantifying over operation
sequences. -/
inductive EmitOp where
  | Emit (b : Nat)
  | EmitBytes (bs : List Nat)
  | EmitWord (w : Nat)
  | PatchWord (addr value : Nat)

/-- Run one buffer/pc operation. -/
def run_emit_op (op : EmitOp) (cg : CodeGenerator) : CodeGenerator :=
  match op with
  | .Emit b => emit b cg
  | .EmitBytes bs => emit_bytes bs cg
  | .EmitWord w => emit_word w cg
  | .PatchWord a v => patch_word a v cg

/-- Run a sequence of buffer/pc operations. -/
def run_emit_ops (ops : List EmitOp) (cg : CodeGenerator) : CodeGenerator :=
  ops.foldl (fun c op => run_emit_op op c) cg

/-- The wrap-aware form of the invariant, which every operation preserves
unconditionally (`pc` is a `u16`, so it carries the code position modulo
`2^16`). -/
def pc_inv (cg : CodeGenerator) : Prop :=
  cg.pc = (cg.origin + cg.code.length) % 65536

theorem pc_inv_emit (b : Nat) (cg : CodeGenerator) (h : pc_inv cg) :
    pc_inv (emit b cg) := by
  simp only [pc_inv, emit, List.length_append, List.length_cons,
    List.length_nil] at h ⊢
  omega

theorem pc_inv_emit_bytes (bs : List Nat) (cg : CodeGenerator) (h : pc_inv cg) :
    pc_inv (emit_bytes bs cg) := by
  induction bs generalizing cg with
  | nil => exact h
  | cons b rest ih => exact ih (emit b cg) (pc_inv_emit b cg h)

theorem pc_inv_emit_word (w : Nat) (cg : CodeGenerator) (h : pc_inv cg) :
    pc_inv (emit_word w cg) :=
  pc_inv_emit _ _ (pc_inv_emit _ _ h)

theorem patch_word_preserves_len_pc (a v : Nat) (cg : CodeGenerator) :
    (patch_word a v cg).code.length = cg.code.length ∧
    (patch_word a v cg).pc = cg.pc := by
  simp [patch_word]

theorem pc_inv_patch_word (a v : Nat) (cg : CodeGenerator) (h : pc_inv cg) :
    pc_inv (patch_word a v cg) := by
  simp only [pc_inv, patch_word, List.length_set]
  exact h

theorem pc_inv_run_emit_ops (ops : List EmitOp) (cg : CodeGenerator)
    (h : pc_inv cg) : pc_inv (run_emit_ops ops cg) := by
  induction ops generalizing cg with
  | nil => exact h
  | cons op rest ih =>
    refine ih (run_emit_op op cg) ?_
    cases op with
    | Emit b => exact pc_inv_emit b cg h
    | EmitBytes bs => exact pc_inv_emit_bytes bs cg h
    | EmitWord w => exact pc_inv_emit_word w cg h
    | PatchWord a v => exact pc_inv_patch_word a v cg h

theorem run_emit_ops_origin (ops : List EmitOp) (cg : CodeGenerator) :
    (run_emit_ops ops cg).origin = cg.origin := by
  induction ops generalizing cg with
  | nil => rfl
  | cons op rest ih =>
    rw [run_emit_ops, List.foldl_cons, ← run_emit_ops]
    rw [ih]
    cases op <;> simp [run_emit_op, emit, emit_word, patch_word]
    case EmitBytes bs =>
      induction bs generalizing cg with
      | nil => rfl
      | cons b rest ihb => rw [emit_bytes, List.foldl_cons, ← emit_bytes, ihb]; rfl

/-- Claim C8: the code generator's invariant `pc = origin + code.length`
holds after construction, and is preserved by every sequence of `emit`,
`emit_bytes`, `emit_word` and `patch_word` operations whose emitted code
keeps `origin + length` inside the 16-bit address space; moreover
`patch_word` never changes the code length or `pc`. -/
theorem pc_tracks_code_length (origin : Nat) (ops : List EmitOp)
    (h0 : origin ≤ 65535)
    (hfit : origin + (run_emit_ops ops (CodeGenerator.new origin)).code.length ≤ 65535) :
    (CodeGenerator.new origin).pc =
      origin + (CodeGenerator.new origin).code.length ∧
    (run_emit_ops ops (CodeGenerator.new origin)).pc =
      origin + (run_emit_ops ops (CodeGenerator.new origin)).code.length ∧
    (∀ a v cg, (patch_word a v cg).code.length = cg.code.length ∧
      (patch_word a v cg).pc = cg.pc) := by
  refine ⟨by simp [CodeGenerator.new], ?_, patch_word_preserves_len_pc⟩
  have hinv : pc_inv (run_emit_ops ops (CodeGenerator.new origin)) :=
    pc_inv_run_emit_ops ops _ (by simp [pc_inv, CodeGenerator.new]; omega)
  have horig := run_emit_ops_origin ops (CodeGenerator.new origin)
  rw [pc_inv, horig] at hinv
  rw [hinv]
  simp only [CodeGenerator.new] at horig hfit ⊢
  omega

/-- Witness for C8 with a short concrete operation sequence. -/
theorem pc_tracks_code_length_witness :
    (CodeGenerator.new 0x4200).pc =
      0x4200 + (CodeGenerator.new 0x4200).code.length ∧
    (run_emit_ops [.Emit 0xCD, .EmitWord 0, .EmitBytes [0x76, 0xC9],
        .PatchWord 0x4201 0x4204] (CodeGenerator.new 0x4200)).pc =
      0x4200 + (run_emit_ops [.Emit 0xCD, .EmitWord 0, .EmitBytes [0x76, 0xC9],
        .PatchWord 0x4201 0x4204] (CodeGenerator.new 0x4200)).code.length ∧
    (∀ a v cg, (patch_word a v cg).code.length = cg.code.length ∧
      (patch_word a v cg).pc = cg.pc) :=
  pc_tracks_code_length 0x4200
    [.Emit 0xCD, .EmitWord 0, .EmitBytes [0x76, 0xC9], .PatchWord 0x4201 0x4204]
    (by norm_num) (by norm_num [run_emit_ops, run_emit_op, emit, emit_word,
      emit_bytes, patch_word, CodeGenerator.new])

/-- The scalar type denoted by a base-type token (`parse_type`'s first
match, as a function for stating C9 over all four base tokens). -/
def base_type_of : Token → DataType
  | .Card => .Card
  | .Int => .Int
  | .Char_ => .Char
  | _ => .Byte

/-- The array type `parse_type` builds over a base-type token. -/
def array_type_of (bt : Token) (n : Nat) : DataType :=
  match base_type_of bt with
  | .Byte | .Char => .ByteArray n
  | .Card => .CardArray n
  | .Int => .IntArray n
  | _ => base_type_of bt

theorem i32_as_usize_of_nonneg (n : Int) (h0 : 0 ≤ n) (h31 : n < 2 ^ 31) :
    i32_as_usize n = n.toNat := by
  unfold i32_as_usize
  rw [Int.emod_eq_of_lt h0 (by omega)]

/-- Claim C9: a declaration `⟨base⟩ ARRAY ⟨name⟩` with no parenthesized
size parses to the corresponding array type with the default element count
256; a parenthesized number is used as the element count instead (the
number token carries a non-negative `i32`, as all lexed numbers do). -/
theorem array_decl_default_size (bt : Token)
    (hbt : bt = .Byte ∨ bt = .Card ∨ bt = .Int ∨ bt = .Char_) :
    (∀ (name : String) (rest : List Token),
      parse_type ⟨bt :: .Array :: .Identifier name :: rest, 0⟩ =
        .ok (array_type_of bt 256, ⟨bt :: .Array :: .Identifier name :: rest, 2⟩)) ∧
    (∀ (n : Int) (rest : List Token), 0 ≤ n → n < 2 ^ 31 →
      parse_type ⟨bt :: .Array :: .LeftParen :: .Number n :: .RightParen :: rest, 0⟩ =
        .ok (array_type_of bt n.toNat,
          ⟨bt :: .Array :: .LeftParen :: .Number n :: .RightParen :: rest, 5⟩)) := by
  rcases hbt with rfl | rfl | rfl | rfl <;>
    refine ⟨fun name rest => ?_, fun n rest hn0 hn31 => ?_⟩ <;>
    simp_all [parse_type, parse_number, expect, Parser.current, Parser.advance,
      Parser.skip_newlines_of_ne, i32_as_usize_of_nonneg, base_type_of,
      array_type_of, Bind.bind, Except.bind, instBEqToken, Token.beq,
      Token.tag, Token.numVal, Token.strVal, Token.charVal]

/-- Witness for C9: `BYTE ARRAY x` gives `ByteArray 256`, and
`CARD ARRAY (10) ...` gives `CardArray 10`. -/
theorem array_decl_default_size_witness :
    parse_type ⟨[.Byte, .Array, .Identifier "x"], 0⟩ =
      .ok (.ByteArray 256, ⟨[.Byte, .Array, .Identifier "x"], 2⟩) ∧
    parse_type ⟨[.Card, .Array, .LeftParen, .Number 10, .RightParen], 0⟩ =
      .ok (.CardArray 10, ⟨[.Card, .Array, .LeftParen, .Number 10, .RightParen], 5⟩) :=
  ⟨(array_decl_default_size .Byte (Or.inl rfl)).1 "x" [],
   (array_decl_default_size .Card (Or.inr (Or.inl rfl))).2 10 [] (by norm_num)
     (by norm_num)⟩

/-- Claim C3 (counterexample): the token stream `RETURN ⏎ 5` — a RETURN
token immediately followed by a Newline token — parses to
`Return (Some 5)`, not `Return None`: `parse_statement` skips newlines
after RETURN before deciding whether a value follows, so the `Newline` arm
of its check can never fire. -/
theorem return_before_newline_still_takes_value :
    parse_statement 20 ⟨[.Return, .Newline, .Number 5, .Eof], 0⟩ =
      .ok (some (.Return (some (.Number 5))),
        ⟨[.Return, .Newline, .Number 5, .Eof], 3⟩) ∧
    (Statement.Return (some (.Number 5)) ≠ Statement.Return none) := by
  exact ⟨rfl, by simp⟩

/-- Claim C3 (amended): after RETURN the parser first skips newlines, so
the observed token is never `Newline`; the Return node carries no value
exactly when the first non-newline token after RETURN is `Eof`, `Od` or
`Fi`, and otherwise one expression is parsed starting at that token. -/
theorem return_value_absent_iff_terminator (fuel : Nat) (p : Parser)
    (h : p.current = Token.Return) :
    (p.advance.skip_newlines.current ≠ Token.Newline) ∧
    ((p.advance.skip_newlines.current = .Eof ∨ p.advance.skip_newlines.current = .Od ∨
        p.advance.skip_newlines.current = .Fi) →
      parse_statement (fuel + 1) p =
        .ok (some (.Return none), p.advance.skip_newlines)) ∧
    ((p.advance.skip_newlines.current ≠ .Eof ∧ p.advance.skip_newlines.current ≠ .Od ∧
        p.advance.skip_newlines.current ≠ .Fi) →
      parse_statement (fuel + 1) p =
        (parse_expression fuel p.advance.skip_newlines).map
          (fun r => (some (.Return (some r.1)), r.2))) := by
  have hskip : p.skip_newlines = p :=
    Parser.skip_newlines_of_ne (by rw [h]; simp)
  refine ⟨Parser.skip_newlines_current_ne _, ?_, ?_⟩
  · intro hcase
    simp only [parse_statement, hskip, h]
    rcases hcase with hc | hc | hc <;> rw [hc]
  · rintro ⟨h1, h2, h3⟩
    have hne := Parser.skip_newlines_current_ne p.advance
    simp only [parse_statement, hskip, h]
    cases hres : parse_expression fuel p.advance.skip_newlines <;>
      simp [hres, Except.map, Bind.bind, Except.bind]

/-- Witness for the amended C3 on the stream `RETURN OD`. -/
theorem return_value_absent_iff_terminator_witness :
    ((⟨[.Return, .Od], 0⟩ : Parser).advance.skip_newlines.current ≠ Token.Newline) ∧
    (((⟨[.Return, .Od], 0⟩ : Parser).advance.skip_newlines.current = .Eof ∨
        (⟨[.Return, .Od], 0⟩ : Parser).advance.skip_newlines.current = .Od ∨
        (⟨[.Return, .Od], 0⟩ : Parser).advance.skip_newlines.current = .Fi) →
      parse_statement (20 + 1) ⟨[.Return, .Od], 0⟩ =
        .ok (some (.Return none), (⟨[.Return, .Od], 0⟩ : Parser).advance.skip_newlines)) ∧
    (((⟨[.Return, .Od], 0⟩ : Parser).advance.skip_newlines.current ≠ .Eof ∧
        (⟨[.Return, .Od], 0⟩ : Parser).advance.skip_newlines.current ≠ .Od ∧
        (⟨[.Return, .Od], 0⟩ : Parser).advance.skip_newlines.current ≠ .Fi) →
      parse_statement (20 + 1) ⟨[.Return, .Od], 0⟩ =
        (parse_expression 20 (⟨[.Return, .Od], 0⟩ : Parser).advance.skip_newlines).map
          (fun r => (some (.Return (some r.1)), r.2))) :=
  return_value_absent_iff_terminator 20 ⟨[.Return, .Od], 0⟩ rfl

/-- A program consisting only of empty procedures with the given names (the
family over which the entry-patch rule is stated). -/
def mkProg (names : List String) : Program :=
  ⟨[], names.map (fun n => ⟨n, [], none, [], []⟩)⟩

/-- The procedure table produced by emitting one empty (1-byte) procedure
per name starting at `base`, newest binding first. -/
def procAddrs : List String → Nat → List (String × Nat)
  | [], _ => []
  | n :: rest, base => procAddrs rest (base + 1) ++ [(n, base)]

theorem lookup_append (k : String) (l1 l2 : List (String × Nat)) :
    List.lookup k (l1 ++ l2) =
      (List.lookup k l1).orElse (fun _ => List.lookup k l2) := by
  induction l1 with
  | nil => simp [List.lookup]
  | cons a rest ih =>
    rcases a with ⟨a1, a2⟩
    simp only [List.cons_append, List.lookup]
    by_cases hk : k == a1 <;> simp [hk, ih]

theorem lookup_procAddrs_of_not_mem (k : String) (names : List String) (base : Nat)
    (h : k ∉ names) : List.lookup k (procAddrs names base) = none := by
  induction names generalizing base with
  | nil => simp [procAddrs]
  | cons n rest ih =>
    simp only [procAddrs, lookup_append]
    rw [ih _ (by simp_all)]
    simp [List.lookup, show ¬(k == n) by simp_all]

theorem lookup_procAddrs (k : String) (names : List String) (base : Nat)
    (hnd : names.Nodup) (hm : k ∈ names) :
    List.lookup k (procAddrs names base) = some (base + names.indexOf k) := by
  induction names generalizing base with
  | nil => simp at hm
  | cons n rest ih =>
    simp only [procAddrs, lookup_append]
    by_cases hk : k = n
    · subst hk
      rw [lookup_procAddrs_of_not_mem _ _ _ (by simp_all [List.nodup_cons])]
      simp [List.lookup]
    · have hmr : k ∈ rest := by simp_all
      rw [ih _ (by simp_all [List.nodup_cons]) hmr]
      simp only [Option.orElse]
      rw [List.indexOf_cons_ne _ (Ne.symm hk)]
      simp
      omega

theorem gen_procedure_empty (name : String) (cg : CodeGenerator)
    (hpc : cg.pc + 1 ≤ 65535) :
    gen_procedure ⟨name, [], none, [], []⟩ cg =
      .ok { cg with code := cg.code ++ [0xC9], pc := cg.pc + 1,
                    procedures := (name, cg.pc) :: cg.procedures,
                    locals := [] } := by
  simp [gen_procedure, gen_statements, current_address, emit, List.foldl,
    Bind.bind, Except.bind, Nat.mod_eq_of_lt (show cg.pc + 1 < 65536 by omega)]

theorem gen_procedures_empty (names : List String) (cg : CodeGenerator)
    (hpc : cg.pc + names.length ≤ 65535) (hloc : cg.locals = []) :
    gen_procedures (names.map fun n => ⟨n, [], none, [], []⟩) cg =
      .ok { cg with code := cg.code ++ List.replicate names.length 0xC9,
                    pc := cg.pc + names.length,
                    procedures := procAddrs names cg.pc ++ cg.procedures,
                    locals := [] } := by
  induction names generalizing cg with
  | nil =>
    simp only [List.map_nil, gen_procedures, List.replicate, List.append_nil,
      procAddrs, List.nil_append]
    cases cg
    simp_all
  | cons n rest ih =>
    simp only [List.map_cons, gen_procedures]
    rw [gen_procedure_empty n cg (by simp at hpc; omega)]
    simp only [Bind.bind, Except.bind]
    rw [ih _ (by simp_all; omega) rfl]
    simp only [procAddrs, List.replicate_succ, Except.ok.injEq]
    cases cg
    simp_all
    refine ⟨?_, by omega⟩
    rw [List.replicate_succ]

/-- The entry address the *amended* claim C2 predicts for `mkProg names` at
origin 0: the procedure spelled exactly `Main`, else exactly `main`, else
the first procedure (all procedures are one `RET` byte, emitted from
address 4). -/
def entry_addr_of (names : List String) : Nat :=
  if "Main" ∈ names then 4 + names.indexOf "Main"
  else if "main" ∈ names then 4 + names.indexOf "main"
  else 4

/-- Claim C2 (amended): for every program of distinct, empty procedures,
the entry stub's CALL operand is patched to the address of the procedure
named exactly `Main`, else the one named exactly `main`, else the first
procedure — matching is by exact spelling, not case-insensitive. -/
theorem entry_patched_to_Main_main_or_first (names : List String)
    (hnd : names.Nodup) (hne : names ≠ []) (hlen : 4 + names.length ≤ 65535) :
    (generate (mkProg names) (CodeGenerator.new 0)).map Prod.fst =
      .ok ([0xCD, entry_addr_of names % 256, entry_addr_of names / 256 % 256, 0x76]
        ++ List.replicate names.length 0xC9) := by
  simp only [generate, mkProg, CodeGenerator.new, List.foldl]
  rw [gen_procedures_empty names _
    (by simp [emit, emit_word, CodeGenerator.new]; omega) rfl]
  simp only [Bind.bind, Except.bind, emit, emit_word, CodeGenerator.new,
    List.append_nil, List.nil_append, List.cons_append]
  by_cases hMain : "Main" ∈ names
  · rw [lookup_procAddrs _ _ _ hnd hMain]
    simp [patch_word, entry_addr_of, hMain, Except.map, List.set]
  · rw [lookup_procAddrs_of_not_mem _ _ _ hMain]
    by_cases hmain : "main" ∈ names
    · rw [lookup_procAddrs _ _ _ hnd hmain]
      simp [patch_word, entry_addr_of, hMain, hmain, Except.map, List.set]
    · rw [lookup_procAddrs_of_not_mem _ _ _ hmain]
      cases names with
      | nil => exact absurd rfl hne
      | cons n rest =>
        simp only [List.map_cons, List.head?]
        rw [lookup_procAddrs _ _ _ hnd (by simp)]
        simp [patch_word, entry_addr_of, hMain, hmain, Except.map, List.set]

/-- Witness for the amended C2: `["Foo", "main"]` routes the entry to
`main` at address 5. -/
theorem entry_patched_to_Main_main_or_first_witness :
    (generate (mkProg ["Foo", "main"]) (CodeGenerator.new 0)).map Prod.fst =
      .ok ([0xCD, entry_addr_of ["Foo", "main"] % 256,
        entry_addr_of ["Foo", "main"] / 256 % 256, 0x76]
        ++ List.replicate (["Foo", "main"] : List String).length 0xC9) :=
  entry_patched_to_Main_main_or_first ["Foo", "main"] (by simp) (by simp)
    (by norm_num)

/-- The smallest interesting program: `PROC Main` with a bare `RETURN`. -/
def trivProg : Program := ⟨[], [⟨"Main", [], none, [], [.Return none]⟩]⟩

/-- Claim C4: every successful compile produces exactly
`0xC3, lo(code_start), hi(code_start)` (with `code_start = origin + 3 +
len(runtime)`, here `origin + 109`) followed by the runtime blob followed
by the program code, so the total length is `3 + len(runtime) +
len(program_code)`. -/
theorem compile_binary_layout (org : Nat) (program : Program) (binary : List Nat)
    (_hbound : org + 109 ≤ 65535)
    (h : compile org program = .ok binary) :
    ∃ program_code cgf,
      generate program
        ((CodeGenerator.new (generate_runtime (org + 3)).2.end_address).set_runtime_symbols
          (generate_runtime (org + 3)).2) = .ok (program_code, cgf) ∧
      (generate_runtime (org + 3)).2.end_address =
        org + 3 + (generate_runtime (org + 3)).1.length ∧
      binary = [0xC3, (org + 109) % 256, (org + 109) / 256 % 256]
        ++ (generate_runtime (org + 3)).1 ++ program_code ∧
      binary.length = 3 + (generate_runtime (org + 3)).1.length + program_code.length := by
  have he : (generate_runtime (org + 3)).2.end_address = org + 109 := by
    rw [generate_runtime_symbols_closed_form]
  rw [compile] at h
  cases hgen : generate program
      ((CodeGenerator.new (generate_runtime (org + 3)).2.end_address).set_runtime_symbols
        (generate_runtime (org + 3)).2) with
  | error e =>
    simp [hgen, Bind.bind, Except.bind] at h
  | ok r =>
    rw [hgen] at h
    simp only [Bind.bind, Except.bind, Except.ok.injEq] at h
    refine ⟨r.1, r.2, rfl, by rw [he, generate_runtime_length], ?_, ?_⟩
    · rw [← h, he]
    · rw [← h]
      simp [generate_runtime_length]
      omega

/-- Witness for C4: the successful compile of `trivProg` at the default
origin `0x4200`. -/
theorem compile_binary_layout_witness :
    ∃ program_code cgf,
      generate trivProg
        ((CodeGenerator.new (generate_runtime (0x4200 + 3)).2.end_address).set_runtime_symbols
          (generate_runtime (0x4200 + 3)).2) = .ok (program_code, cgf) ∧
      (generate_runtime (0x4200 + 3)).2.end_address =
        0x4200 + 3 + (generate_runtime (0x4200 + 3)).1.length ∧
      (compile 0x4200 trivProg).toOption.getD [] =
        [0xC3, (0x4200 + 109) % 256, (0x4200 + 109) / 256 % 256]
        ++ (generate_runtime (0x4200 + 3)).1 ++ program_code ∧
      ((compile 0x4200 trivProg).toOption.getD []).length =
        3 + (generate_runtime (0x4200 + 3)).1.length + program_code.length :=
  compile_binary_layout 0x4200 trivProg ((compile 0x4200 trivProg).toOption.getD [])
    (by norm_num) rfl

end Action
